import Mathlib

/-!
Shallow embedding of the java_line scaffolding tool (src/main.rs).

The first part models the root resolver find_root. A path is the list of
its components from the filesystem root, a directory listing gives for
each entry the result of canonicalizing it (none models a canonicalization
failure), and a filesystem maps each directory path to its listing.

The second part models the scaffolder (new_package, get_package_info,
create_class, add_class) over an explicit filesystem state.
-/

/-- A canonical path: the components of its parent directory paired with
its final component. Models a successful canonicalize result for a
directory entry; such a path always has a parent and a file name, so the
unwraps applied to it in the source succeed by construction. -/
abbrev CanonPath : Type := List String × String

/-- One directory entry as seen by the walk: the result of canonicalizing
it, or none when canonicalization fails. -/
abbrev DirListing : Type := List (Option CanonPath)

/-- The filesystem seen by the resolver: each directory path has a listing
of entries. -/
abbrev Fsys : Type := List String → DirListing

/-- The test applied to a canonical entry in find_root: its file name
equals the sentinel ".java_line". -/
def isMarkerEntry : Option CanonPath → Bool
  | some e => e.2 == ".java_line"
  | none => false

/-- Some entry of the listing canonicalizes to a marker. -/
def hasMarker (l : DirListing) : Bool := l.any isMarkerEntry

/-- The per-level scan of the recursive arm of find_root: entries whose
canonicalization failed are filtered out, then the first entry whose file
name is ".java_line" is returned. The second canonicalize the source
applies to the already canonical path is the identity and is not
repeated. -/
def scanSkip (l : DirListing) : Option CanonPath :=
  (l.filterMap id).find? (fun e => e.2 == ".java_line")

/-- The scan of the first level only (the None arm of find_root): there
each canonicalization result is unwrapped at once, so the lazy find
panics at the first failed entry reached before a marker; the error value
models that panic. -/
def scanStrict : DirListing → Except Unit (Option CanonPath)
  | [] => .ok none
  | none :: _ => .error ()
  | some e :: rest => if e.2 == ".java_line" then .ok (some e) else scanStrict rest

/-- Path parent: the filesystem root (the empty component list) has
none. -/
def parentPath : List String → Option (List String)
  | [] => none
  | ps@(_ :: _) => some ps.dropLast

/-- The Some arm of find_root, its recursion realized over the reversed
path so that moving to the parent directory (dropping the last component)
is structural: scan the level with scanSkip; on a hit return the
canonical marker path's parent, otherwise recurse on the directory's
parent, and return none at the filesystem root. The theorem
find_root_some_eq below restates this in the source's own shape. -/
def find_root_from_rev (fs : Fsys) : List String → Option (List String)
  | [] =>
    match scanSkip (fs []) with
    | some file => some file.1
    | none => none
  | c :: rtail =>
    match scanSkip (fs ((c :: rtail).reverse)) with
    | some file => some file.1
    | none => find_root_from_rev fs rtail

/-- The Some arm of find_root on the forward path. -/
def find_root_some (fs : Fsys) (path : List String) : Option (List String) :=
  find_root_from_rev fs path.reverse

/-- find_root called with None, the working directory pwd made an explicit
argument: scan pwd strictly (a canonicalization failure reached before a
marker panics), return the marker's canonical parent on a hit, otherwise
continue with the Some arm on the parent directory; the source unwraps
the parent, panicking when pwd is already the filesystem root. -/
def find_root (fs : Fsys) (pwd : List String) : Except Unit (Option (List String)) :=
  match scanStrict (fs pwd) with
  | .error _ => .error ()
  | .ok (some file) => .ok (some file.1)
  | .ok none =>
    match parentPath pwd with
    | some parent => .ok (find_root_some fs parent)
    | none => .error ()

/-- A well formed directory tree: every entry of directory p
canonicalizes, and its canonical path is p extended by one final
component. -/
def WellFormed (fs : Fsys) : Prop :=
  ∀ p e, e ∈ fs p → ∃ n, e = some (p, n)

/-- The ancestor of s at depth d: drop the last d components. -/
def anc (s : List String) (d : Nat) : List String := s.take (s.length - d)

/-- Outcomes add_class can signal besides success: the NotJavaLineProject
error value, or a panic from an unwrap. -/
inductive AddErr : Type where
  | notJavaLineProject : AddErr
  | panicked : AddErr
deriving DecidableEq

/-- Scaffolder level filesystem state: directories and files of the
working tree (paths relative to the working directory), plus the result
of the is_java_line_project check, which the source recomputes with
find_root; the scaffolder operations only branch on that boolean, so it
is carried as a field here. -/
structure FsState : Type where
  dirs : List String
  files : List (String × String)
  inProject : Bool
deriving DecidableEq

/-- A name the operating system can create as a directory of the working
directory: non empty, one component, no NUL character. -/
def validDirName (s : String) : Bool :=
  !(s.data.isEmpty) && !(s.data.contains '/') && !(s.data.contains (Char.ofNat 0))

/-- DirBuilder create: fails (none) when the name is not creatable as a
single component or the directory already exists. -/
def createDir (st : FsState) (name : String) : Option FsState :=
  if validDirName name && !(st.dirs.contains name) then
    some { st with dirs := name :: st.dirs }
  else none

/-- File create followed by write_all: the new content shadows any
previous file at the same path. -/
def writeFile (st : FsState) (path content : String) : FsState :=
  { st with files := (path, content) :: st.files }

/-- File open followed by read_to_string: the most recently written
content at the path, if any. -/
def lookupFile (st : FsState) (path : String) : Option String :=
  (st.files.find? (fun pc => pc.1 == path)).map (fun pc => pc.2)

/-- Modelled from the manifest format: TOML inline whitespace (space and
tab) skipping. -/
def skipWs : List Char → List Char
  | [] => []
  | c :: rest => if c = ' ' ∨ c = '\t' then skipWs rest else c :: rest

/-- Modelled from the manifest format: the short escape sequences of a
TOML basic string (the unicode escapes lie outside the fragment). -/
def escChar : Char → Option Char
  | '"' => some '"'
  | '\\' => some '\\'
  | 'b' => some (Char.ofNat 8)
  | 'f' => some (Char.ofNat 12)
  | 'n' => some '\n'
  | 'r' => some '\r'
  | 't' => some '\t'
  | _ => none

/-- A character a TOML basic string may hold literally: tab, or a scalar
at least space that is not a quote, a backslash or delete. -/
def tomlSafeChar (c : Char) : Bool :=
  c == '\t' || (decide (' ' ≤ c) && c != '"' && c != '\\' && c != Char.ofNat 0x7F)

/-- Modelled from the manifest format: the body of a TOML basic string
after its opening quote; yields the decoded content and what follows the
closing quote, or none on a malformed string. -/
def parseBasicStringAux : List Char → Option (List Char × List Char)
  | [] => none
  | c :: rest =>
    if c = '"' then some ([], rest)
    else if c = '\\' then
      match rest with
      | [] => none
      | e :: rest2 =>
        match escChar e with
        | some ec => (parseBasicStringAux rest2).map (fun p => (ec :: p.1, p.2))
        | none => none
    else if tomlSafeChar c then
      (parseBasicStringAux rest).map (fun p => (c :: p.1, p.2))
    else none

/-- Consume an expected literal character sequence, yielding the rest. -/
def expectChars : List Char → List Char → Option (List Char)
  | [], l => some l
  | _ :: _, [] => none
  | p :: ps, c :: cs => if c = p then expectChars ps cs else none

/-- Modelled from the manifest reader: toml from_str into JavaLineConfig,
restricted to the fragment one key name with a basic string value on a
single line, which covers every manifest this program writes; inputs
outside the fragment are rejected. -/
def toml_parse_name (buf : String) : Option String :=
  match expectChars "name".data (skipWs buf.data) with
  | none => none
  | some r1 =>
    match expectChars ['='] (skipWs r1) with
    | none => none
    | some r2 =>
      match expectChars ['"'] (skipWs r2) with
      | none => none
      | some r3 =>
        match parseBasicStringAux r3 with
        | none => none
        | some (s, r4) => if skipWs r4 = [] then some (String.mk s) else none

/-- get_package_info: open target_dir/pack_def.toml; an absent file gives
the empty string, present content is parsed, and a parse failure is the
unwrap panic, modelled as the error value. -/
def get_package_info (st : FsState) (target_dir : String) : Except Unit String :=
  match lookupFile st (target_dir ++ "/pack_def.toml") with
  | none => .ok ""
  | some buf =>
    match toml_parse_name buf with
    | some info => .ok info
    | none => .error ()

/-- new_package: gated on the project check; when the directory create
fails it prints Package already exists and returns early; otherwise it
writes the manifest into the new directory. The second component collects
the println output of the call. -/
def new_package (st : FsState) (package_name : String) : FsState × List String :=
  if st.inProject then
    match createDir st package_name with
    | none => (st, ["Package already exists"])
    | some st1 =>
      (writeFile st1 (package_name ++ "/pack_def.toml")
        ("name=\"" ++ package_name ++ "\""), [])
  else (st, ["You are not in a java_line project"])

/-- Modelled from char to_uppercase collected into a string: the ascii
fragment, one character uppercased when it is a lowercase letter. -/
def charToUppercase (c : Char) : String := String.mk [c.toUpper]

/-- The derived class name: uppercase the first character and keep the
rest; empty input gives the empty name. -/
def className (class_file_name : String) : String :=
  match class_file_name.data with
  | [] => ""
  | l :: rest => charToUppercase l ++ String.mk rest

/-- The output file name used by create_class. -/
def classFileName (class_file_name : String) : String :=
  className class_file_name ++ ".java"

/-- The generated body without a package qualifier: the source joins the
template fragments with a newline, so blank lines separate them. -/
def classBodyPlain (cn : String) : String :=
  String.intercalate "\n"
    ["class " ++ cn ++ " \x7b", "\n",
     "\tpublic static void main(String[] args) \x7b", "\n",
     "\t\x7d", "\n", "\x7d"]

/-- The generated body with an import line for the package qualifier. -/
def classBodyImport (info cn : String) : String :=
  String.intercalate "\n"
    ["import " ++ info ++ ";", "\n",
     "class " ++ cn ++ " \x7b", "\n",
     "\tpublic static void main(String[] args) \x7b", "\n",
     "\t\x7d", "\n", "\x7d"]

/-- create_class: write the class file under the parent directory when one
is given, in the working directory otherwise; the import line appears
only when package info was passed, and the no parent arm ignores package
info exactly as the source does. -/
def create_class (st : FsState) (class_file_name : String)
    (parent_dir : Option String) (package_info : Option String) : FsState :=
  match parent_dir with
  | some dir =>
    match package_info with
    | some info =>
      writeFile st (dir ++ "/" ++ classFileName class_file_name)
        (classBodyImport info (className class_file_name))
    | none =>
      writeFile st (dir ++ "/" ++ classFileName class_file_name)
        (classBodyPlain (className class_file_name))
  | none =>
    writeFile st (classFileName class_file_name)
      (classBodyPlain (className class_file_name))

/-- add_class: gated on the project check; when a parent directory is
given, its package info is read and passed to create_class only when non
empty. The Except value is the returned Result, with panicked standing
for the unwrap panic escaping from get_package_info. -/
def add_class (st : FsState) (class_file_name : String)
    (parent_dir : Option String) : FsState × Except AddErr Unit :=
  if st.inProject then
    match parent_dir with
    | some parent =>
      match get_package_info st parent with
      | .error _ => (st, .error .panicked)
      | .ok package_info =>
        if package_info.isEmpty then
          (create_class st class_file_name (some parent) none, .ok ())
        else
          (create_class st class_file_name (some parent) (some package_info), .ok ())
    | none => (create_class st class_file_name none none, .ok ())
  else (st, .error .notJavaLineProject)

/-- Package names for which the manifest round trips: a creatable
directory name whose characters all sit in the literal range of a TOML
basic string. -/
def safePkgName (s : String) : Bool :=
  validDirName s && s.data.all tomlSafeChar

/-- Fixture: the empty filesystem, every directory empty. -/
def fsEmpty : Fsys := fun _ => []

/-- Fixture: one marker, the immediate child of directory h. -/
def fsMarkerH : Fsys := fun p =>
  if p = ["h"] then [some (["h"], ".java_line")] else []

/-- Fixture: a failing entry at the start directory a, and a marker at the
filesystem root. -/
def fsBrokenFirst : Fsys := fun p =>
  if p = ["a"] then [none]
  else if p = [] then [some ([], ".java_line")] else []

/-- Fixture: one marker, the immediate child of directory d. -/
def fsMarkerD : Fsys := fun p =>
  if p = ["d"] then [some (["d"], ".java_line")] else []

/-- Fixture: a fresh in project scaffolder state. -/
def stFresh : FsState := { dirs := [], files := [], inProject := true }

/-- Fixture: in project, package p already exists with an old manifest. -/
def stOldPkg : FsState :=
  { dirs := ["p"], files := [("p/pack_def.toml", "name=\"old\"")], inProject := true }

/-- Fixture: a state outside any project. -/
def stOutside : FsState := { dirs := [], files := [], inProject := false }

/-- Fixture: in project, package p's manifest names the empty string. -/
def stEmptyName : FsState :=
  { dirs := ["p"], files := [("p/pack_def.toml", "name=\"\"")], inProject := true }

/-- Fixture: in project, package p's manifest does not parse. -/
def stBadManifest : FsState :=
  { dirs := ["p"], files := [("p/pack_def.toml", "oops")], inProject := true }

/-- Fixture: in project, package p's manifest names x. -/
def stNamedX : FsState :=
  { dirs := ["p"], files := [("p/pack_def.toml", "name=\"x\"")], inProject := true }

/-! Helper lemmas about the root resolver. -/

theorem anc_zero (s : List String) : anc s 0 = s := by
  simp [anc]

theorem anc_dropLast (p : List String) (k : Nat) :
    anc p.dropLast k = anc p (k + 1) := by
  simp only [anc, List.dropLast_eq_take, List.length_take, List.take_take]
  congr 1
  omega

theorem WellFormed.no_failed {fs : Fsys} (hwf : WellFormed fs) (p : List String) :
    ∀ e ∈ fs p, e ≠ none := by
  intro e he
  obtain ⟨n, hn⟩ := hwf p e he
  simp [hn]

theorem scanSkip_of_no_marker {l : DirListing} (h : hasMarker l = false) :
    scanSkip l = none := by
  rw [scanSkip, List.find?_eq_none]
  intro x hx
  rw [List.mem_filterMap] at hx
  obtain ⟨a, ha, hax⟩ := hx
  simp only [id] at hax
  subst hax
  simp only [hasMarker, List.any_eq_false] at h
  have hm := h _ ha
  simp only [isMarkerEntry] at hm
  simpa using hm

theorem scanSkip_of_marker {l : DirListing} (h : hasMarker l = true) :
    ∃ e, scanSkip l = some e ∧ e.2 = ".java_line" ∧ some e ∈ l := by
  simp only [hasMarker, List.any_eq_true] at h
  obtain ⟨o, ho, hmo⟩ := h
  match o, hmo with
  | some x, hmo =>
    have hx : x ∈ l.filterMap id := List.mem_filterMap.mpr ⟨some x, ho, rfl⟩
    have hpx : (x.2 == ".java_line") = true := by simpa [isMarkerEntry] using hmo
    have hs : (scanSkip l).isSome := by
      rw [scanSkip, List.find?_isSome]
      exact ⟨x, hx, hpx⟩
    obtain ⟨e, he⟩ := Option.isSome_iff_exists.mp hs
    have he' : List.find? (fun x => x.2 == ".java_line") (l.filterMap id) = some e := by
      rw [scanSkip] at he
      exact he
    have hpe := List.find?_some he'
    have hme := List.mem_of_find?_eq_some he'
    obtain ⟨a, ha, hae⟩ := List.mem_filterMap.mp hme
    simp only [id] at hae
    subst hae
    exact ⟨e, he, eq_of_beq hpe, ha⟩

theorem scanStrict_ok {l : DirListing} (h : ∀ e ∈ l, e ≠ none) :
    scanStrict l = .ok (scanSkip l) := by
  induction l with
  | nil => rfl
  | cons o rest ih =>
    match o with
    | none => exact absurd rfl (h none (List.mem_cons_self _ _))
    | some e =>
      rw [scanStrict]
      by_cases hm : (e.2 == ".java_line") = true
      · rw [if_pos hm, scanSkip, List.filterMap_cons]
        simp only [id]
        rw [List.find?_cons_of_pos (p := fun (x : CanonPath) => x.2 == ".java_line") _ hm]
      · rw [if_neg hm, ih (fun e' he' => h e' (List.mem_cons_of_mem _ he'))]
        rw [scanSkip, scanSkip, List.filterMap_cons]
        simp only [id]
        rw [List.find?_cons_of_neg (p := fun (x : CanonPath) => x.2 == ".java_line") _ hm]

theorem find_root_some_of_scan {fs : Fsys} {p : List String} {e : CanonPath}
    (h : scanSkip (fs p) = some e) : find_root_some fs p = some e.1 := by
  induction p using List.reverseRecOn with
  | nil =>
    rw [find_root_some, List.reverse_nil, find_root_from_rev, h]
  | append_singleton xs x _ =>
    rw [find_root_some]
    rw [show (xs ++ [x]).reverse = x :: xs.reverse by simp]
    rw [find_root_from_rev]
    rw [show (x :: xs.reverse).reverse = xs ++ [x] by simp]
    rw [h]

theorem find_root_some_nil {fs : Fsys} (h : scanSkip (fs []) = none) :
    find_root_some fs [] = none := by
  rw [find_root_some, List.reverse_nil, find_root_from_rev, h]

theorem find_root_some_step' {fs : Fsys} {p : List String} (hp : p ≠ [])
    (h : scanSkip (fs p) = none) :
    find_root_some fs p = find_root_some fs p.dropLast := by
  induction p using List.reverseRecOn with
  | nil => exact absurd rfl hp
  | append_singleton xs x _ =>
    rw [find_root_some]
    rw [show (xs ++ [x]).reverse = x :: xs.reverse by simp]
    rw [find_root_from_rev]
    rw [show (x :: xs.reverse).reverse = xs ++ [x] by simp]
    rw [h, List.dropLast_concat]
    rfl

theorem find_root_some_eq (fs : Fsys) (path : List String) :
    find_root_some fs path =
      match scanSkip (fs path) with
      | some file => some file.1
      | none =>
        match parentPath path with
        | some parent => find_root_some fs parent
        | none => none := by
  cases h : scanSkip (fs path) with
  | some e => rw [find_root_some_of_scan h]
  | none =>
    cases path with
    | nil =>
      rw [find_root_some_nil h]
      rfl
    | cons a rest =>
      rw [find_root_some_step' (by simp) h]
      rfl

theorem find_root_some_of_marker_here {fs : Fsys} {p : List String}
    (hwf : WellFormed fs) (h : hasMarker (fs p) = true) :
    find_root_some fs p = some p := by
  obtain ⟨e, he, _, hmem⟩ := scanSkip_of_marker h
  obtain ⟨n, hn⟩ := hwf p (some e) hmem
  have hep : e = (p, n) := Option.some.inj hn
  rw [find_root_some_of_scan he, hep]

theorem find_root_some_marker {fs : Fsys} (hwf : WellFormed fs) :
    ∀ (d : Nat) (p : List String), d ≤ p.length →
      hasMarker (fs (anc p d)) = true →
      (∀ k, k < d → hasMarker (fs (anc p k)) = false) →
      find_root_some fs p = some (anc p d) := by
  intro d
  induction d with
  | zero =>
    intro p _ hm _
    rw [anc_zero] at hm ⊢
    exact find_root_some_of_marker_here hwf hm
  | succ d ih =>
    intro p hd hm hnone
    have h0 : hasMarker (fs p) = false := by
      have := hnone 0 (Nat.succ_pos d)
      rwa [anc_zero] at this
    have hp : p ≠ [] := by
      intro he
      subst he
      simp at hd
    rw [find_root_some_step' hp (scanSkip_of_no_marker h0)]
    have hlen : d ≤ p.dropLast.length := by
      simp only [List.length_dropLast]
      omega
    have hm' : hasMarker (fs (anc p.dropLast d)) = true := by
      rw [anc_dropLast]
      exact hm
    have hnone' : ∀ k, k < d → hasMarker (fs (anc p.dropLast k)) = false := by
      intro k hk
      rw [anc_dropLast]
      exact hnone (k + 1) (by omega)
    rw [ih p.dropLast hlen hm' hnone', anc_dropLast]

theorem find_root_some_no_marker {fs : Fsys} :
    ∀ p : List String, (∀ k, k ≤ p.length → hasMarker (fs (anc p k)) = false) →
      find_root_some fs p = none := by
  intro p
  induction p using List.reverseRecOn with
  | nil =>
    intro h
    have h0 : hasMarker (fs []) = false := by
      have := h 0 (Nat.le_refl 0)
      rwa [anc_zero] at this
    exact find_root_some_nil (scanSkip_of_no_marker h0)
  | append_singleton xs x ih =>
    intro h
    have h0 : hasMarker (fs (xs ++ [x])) = false := by
      have := h 0 (Nat.zero_le _)
      rwa [anc_zero] at this
    rw [find_root_some_step' (by simp) (scanSkip_of_no_marker h0), List.dropLast_concat]
    apply ih
    intro k hk
    have hanc : anc xs k = anc (xs ++ [x]) (k + 1) := by
      have := anc_dropLast (xs ++ [x]) k
      rwa [List.dropLast_concat] at this
    rw [hanc]
    apply h (k + 1)
    simp
    omega

theorem find_root_marker_here {fs : Fsys} {s : List String}
    (hwf : WellFormed fs) (hm : hasMarker (fs s) = true) :
    find_root fs s = .ok (some s) := by
  rw [find_root, scanStrict_ok (hwf.no_failed s)]
  obtain ⟨e, he, _, hmem⟩ := scanSkip_of_marker hm
  obtain ⟨n, hn⟩ := hwf s (some e) hmem
  have hep : e = (s, n) := Option.some.inj hn
  rw [he, hep]

theorem find_root_step {fs : Fsys} {s : List String} (hs : s ≠ [])
    (h0 : hasMarker (fs s) = false) (hok : ∀ e ∈ fs s, e ≠ none) :
    find_root fs s = .ok (find_root_some fs s.dropLast) := by
  rw [find_root, scanStrict_ok hok, scanSkip_of_no_marker h0]
  cases s with
  | nil => exact absurd rfl hs
  | cons a rest => rfl

theorem find_root_no_marker {fs : Fsys} {s : List String}
    (hwf : WellFormed fs) (hs : s ≠ [])
    (h : ∀ k, k ≤ s.length → hasMarker (fs (anc s k)) = false) :
    find_root fs s = .ok none := by
  have h0 : hasMarker (fs s) = false := by
    have := h 0 (Nat.zero_le _)
    rwa [anc_zero] at this
  rw [find_root_step hs h0 (hwf.no_failed s)]
  have hlen : 1 ≤ s.length := by
    cases s with
    | nil => exact absurd rfl hs
    | cons a r => exact Nat.succ_le_succ (Nat.zero_le _)
  congr 1
  apply find_root_some_no_marker
  intro k hk
  rw [anc_dropLast]
  apply h (k + 1)
  simp only [List.length_dropLast] at hk
  omega

theorem find_root_marker_at {fs : Fsys} {s : List String} {d : Nat}
    (hwf : WellFormed fs) (hd : d ≤ s.length)
    (hm : hasMarker (fs (anc s d)) = true)
    (hnone : ∀ k, k < d → hasMarker (fs (anc s k)) = false) :
    find_root fs s = .ok (some (anc s d)) := by
  cases d with
  | zero =>
    rw [anc_zero]
    rw [anc_zero] at hm
    exact find_root_marker_here hwf hm
  | succ d =>
    have h0 : hasMarker (fs s) = false := by
      have := hnone 0 (Nat.succ_pos d)
      rwa [anc_zero] at this
    have hs : s ≠ [] := by
      intro he
      subst he
      simp at hd
    rw [find_root_step hs h0 (hwf.no_failed s)]
    congr 1
    rw [← anc_dropLast]
    apply find_root_some_marker hwf d
    · simp only [List.length_dropLast]
      omega
    · rw [anc_dropLast]
      exact hm
    · intro k hk
      rw [anc_dropLast]
      exact hnone (k + 1) (by omega)

theorem scanSkip_filter (l : DirListing) :
    scanSkip (l.filter (fun e => e.isSome)) = scanSkip l := by
  rw [scanSkip, scanSkip]
  congr 1
  induction l with
  | nil => rfl
  | cons o rest ih =>
    cases o with
    | none => simpa using ih
    | some e => simpa using ih

theorem find_root_some_filter (fs : Fsys) :
    ∀ p : List String,
      find_root_some (fun q => (fs q).filter (fun e => e.isSome)) p
        = find_root_some fs p := by
  intro p
  induction p using List.reverseRecOn with
  | nil =>
    cases h : scanSkip (fs []) with
    | some e =>
      rw [find_root_some_of_scan h]
      exact find_root_some_of_scan (by rw [scanSkip_filter, h])
    | none =>
      rw [find_root_some_nil h]
      exact find_root_some_nil (by rw [scanSkip_filter, h])
  | append_singleton xs x ih =>
    cases h : scanSkip (fs (xs ++ [x])) with
    | some e =>
      rw [find_root_some_of_scan h]
      exact find_root_some_of_scan (by rw [scanSkip_filter, h])
    | none =>
      rw [find_root_some_step' (by simp) h]
      rw [@find_root_some_step' (fun q => (fs q).filter (fun e => e.isSome)) (xs ++ [x])
        (by simp) (by rw [scanSkip_filter, h])]
      rw [List.dropLast_concat]
      exact ih

theorem scanStrict_hits_failure {l2 : DirListing} :
    ∀ l1 : DirListing, hasMarker l1 = false →
      scanStrict (l1 ++ none :: l2) = .error () := by
  intro l1
  induction l1 with
  | nil => intro _; rfl
  | cons o rest ih =>
    intro h
    simp only [hasMarker, List.any_cons, Bool.or_eq_false_iff] at h
    obtain ⟨h1, h2⟩ := h
    cases o with
    | none => rfl
    | some e =>
      rw [List.cons_append, scanStrict, if_neg]
      · exact ih h2
      · simp only [isMarkerEntry] at h1
        simp [h1]

theorem find_root_panics {fs : Fsys} {s : List String} {l1 l2 : DirListing}
    (hfs : fs s = l1 ++ none :: l2) (h : hasMarker l1 = false) :
    find_root fs s = .error () := by
  rw [find_root, hfs, scanStrict_hits_failure l1 h]

/-! Helper lemmas about the manifest fragment. -/

theorem tomlSafeChar_ne_quote {c : Char} (h : tomlSafeChar c = true) : ¬ (c = '"') := by
  intro he
  subst he
  exact absurd h (by decide)

theorem tomlSafeChar_ne_backslash {c : Char} (h : tomlSafeChar c = true) : ¬ (c = '\\') := by
  intro he
  subst he
  exact absurd h (by decide)

theorem parseBasicStringAux_cons (c : Char) (rest : List Char) :
    parseBasicStringAux (c :: rest) =
      if c = '"' then some ([], rest)
      else if c = '\\' then
        match rest with
        | [] => none
        | e :: rest2 =>
          match escChar e with
          | some ec => (parseBasicStringAux rest2).map (fun p => (ec :: p.1, p.2))
          | none => none
      else if tomlSafeChar c then
        (parseBasicStringAux rest).map (fun p => (c :: p.1, p.2))
      else none := by
  conv_lhs => rw [parseBasicStringAux.eq_def]

theorem parseBasicStringAux_roundtrip :
    ∀ (cs r : List Char), (∀ c ∈ cs, tomlSafeChar c = true) →
      parseBasicStringAux (cs ++ '"' :: r) = some (cs, r) := by
  intro cs
  induction cs with
  | nil =>
    intro r _
    rw [List.nil_append, parseBasicStringAux_cons, if_pos rfl]
  | cons c cs ih =>
    intro r h
    have hc := h c (List.mem_cons_self _ _)
    rw [List.cons_append, parseBasicStringAux_cons]
    rw [if_neg (tomlSafeChar_ne_quote hc), if_neg (tomlSafeChar_ne_backslash hc), if_pos hc,
      ih r (fun c' hc' => h c' (List.mem_cons_of_mem _ hc'))]
    rfl

theorem toml_parse_name_roundtrip {s : String} (h : s.data.all tomlSafeChar = true) :
    toml_parse_name ("name=\"" ++ s ++ "\"") = some s := by
  have hd : ("name=\"" ++ s ++ "\"").data
      = 'n' :: 'a' :: 'm' :: 'e' :: '=' :: '"' :: (s.data ++ '"' :: []) := by
    rw [String.data_append, String.data_append]
    rfl
  rw [toml_parse_name, hd]
  show (match parseBasicStringAux (s.data ++ '"' :: []) with
        | none => none
        | some (t, r4) => if skipWs r4 = [] then some (String.mk t) else none) = some s
  rw [parseBasicStringAux_roundtrip s.data [] (by simpa [List.all_eq_true] using h)]
  rfl

/-! Claim theorems. -/

/-- Fixture fact: the empty filesystem is a well formed tree. -/
theorem fsEmpty_wf : WellFormed fsEmpty :=
  fun _ e he => absurd he (List.not_mem_nil e)

/-- Fixture fact: the tree with one marker under h is well formed. -/
theorem fsMarkerH_wf : WellFormed fsMarkerH := by
  intro p e he
  unfold fsMarkerH at he
  split at he
  · rename_i hp
    subst hp
    rcases List.mem_singleton.mp he with rfl
    exact ⟨".java_line", rfl⟩
  · exact absurd he (List.not_mem_nil e)

/-- Fixture fact: the tree with one marker under d is well formed. -/
theorem fsMarkerD_wf : WellFormed fsMarkerD := by
  intro p e he
  unfold fsMarkerD at he
  split at he
  · rename_i hp
    subst hp
    rcases List.mem_singleton.mp he with rfl
    exact ⟨".java_line", rfl⟩
  · exact absurd he (List.not_mem_nil e)

/-- C1 counterexample: starting at the filesystem root itself with no
marker anywhere on the (one directory) ancestor chain, find_root does not
return None: it panics unwrapping the parent of the root, modelled by the
error value. -/
theorem C1_counterexample :
    hasMarker (fsEmpty []) = false ∧ ¬ find_root fsEmpty [] = Except.ok none := by
  refine ⟨rfl, ?_⟩
  intro h
  rw [show find_root fsEmpty [] = Except.error () from rfl] at h
  exact Except.noConfusion h

/-- C1 (amended): over well formed trees, when the nearest marker sits at
ancestor depth d of the starting directory, find_root returns that
marker's parent directory (the ancestor at depth d), independent of d;
and when no marker sits on the ancestor chain, find_root returns None
provided the start lies strictly below the filesystem root (started at
the root itself it panics instead, see the counterexample). -/
theorem C1_find_root_marker_depth_spec (fs : Fsys) (s : List String)
    (hwf : WellFormed fs) :
    (∀ d, d ≤ s.length → hasMarker (fs (anc s d)) = true →
        (∀ k, k < d → hasMarker (fs (anc s k)) = false) →
        find_root fs s = Except.ok (some (anc s d)))
      ∧ (s ≠ [] → (∀ k, k ≤ s.length → hasMarker (fs (anc s k)) = false) →
        find_root fs s = Except.ok none) :=
  ⟨fun _ hd hm hn => find_root_marker_at hwf hd hm hn,
   fun hs hn => find_root_no_marker hwf hs hn⟩


/-- C1 witness: in the fixture tree the same marker is found from depth 1
and from depth 3, and a markerless tree resolves to None from below the
root. -/
theorem C1_witness :
    find_root fsMarkerH ["h", "w"] = Except.ok (some ["h"])
      ∧ find_root fsMarkerH ["h", "w", "x", "y"] = Except.ok (some ["h"])
      ∧ find_root fsEmpty ["u", "v"] = Except.ok none := by
  refine ⟨?_, ?_, ?_⟩
  · exact (C1_find_root_marker_depth_spec fsMarkerH ["h", "w"] fsMarkerH_wf).1 1
      (by decide) (by decide)
      (fun k hk => by interval_cases k; decide)
  · exact (C1_find_root_marker_depth_spec fsMarkerH ["h", "w", "x", "y"] fsMarkerH_wf).1 3
      (by decide) (by decide)
      (fun k hk => by interval_cases k <;> decide)
  · exact (C1_find_root_marker_depth_spec fsEmpty ["u", "v"] fsEmpty_wf).2
      (by decide) (fun k _ => rfl)

/-- C4: starting strictly below the filesystem root in a well formed tree
with no marker anywhere on the ancestor chain, the walk reaches the
parentless root directory and find_root returns None cleanly, with no
panic. -/
theorem C4_no_marker_below_root_ok_none (fs : Fsys) (s : List String)
    (hwf : WellFormed fs) (hs : s ≠ [])
    (h : ∀ k, k ≤ s.length → hasMarker (fs (anc s k)) = false) :
    find_root fs s = Except.ok none :=
  find_root_no_marker hwf hs h

/-- C4 witness: a two component start in the empty tree resolves to
None. -/
theorem C4_witness : find_root fsEmpty ["u", "v", "w"] = Except.ok none :=
  C4_no_marker_below_root_ok_none fsEmpty ["u", "v", "w"] fsEmpty_wf
    (by decide) (fun k _ => rfl)

/-- C9 counterexample: the marker is an immediate child of directory d,
resolution starting at d returns d itself, not d's parent (the
filesystem root here). -/
theorem C9_counterexample :
    find_root fsMarkerD ["d"] = Except.ok (some ["d"])
      ∧ ¬ find_root fsMarkerD ["d"] = Except.ok (some ([] : List String)) := by
  refine ⟨rfl, ?_⟩
  intro h
  rw [show find_root fsMarkerD ["d"] = Except.ok (some ["d"]) from rfl] at h
  exact absurd (Option.some.inj (Except.ok.inj h)) (by simp)

/-- C9 (amended): when the marker is an immediate child of directory D,
resolution starting at D returns D itself, the marker's parent, as the
project root. -/
theorem C9_marker_parent_is_dir_itself (fs : Fsys) (D : List String)
    (hwf : WellFormed fs) (hm : hasMarker (fs D) = true) :
    find_root fs D = Except.ok (some D) :=
  find_root_marker_here hwf hm

/-- C9 witness: the fixture marker directory resolves to itself. -/
theorem C9_witness : find_root fsMarkerD ["d"] = Except.ok (some ["d"]) :=
  C9_marker_parent_is_dir_itself fsMarkerD ["d"] fsMarkerD_wf rfl

/-- C6 counterexample: a first level entry whose canonicalization fails is
not skipped; with a failing entry in the start directory and the marker
one level up, the walk panics (error) instead of continuing to the
marker. -/
theorem C6_counterexample :
    hasMarker (fsBrokenFirst []) = true
      ∧ find_root fsBrokenFirst ["a"] = Except.error () :=
  ⟨rfl, rfl⟩

/-- C6 (amended): at every level after the first, entries whose
canonicalization fails are skipped: dropping them from every listing does
not change the recursive walk's result. At the first level, a failing
entry reached before any marker aborts the walk with a panic. -/
theorem C6_canonicalization_failure_handling (fs : Fsys) (p s : List String)
    (l1 l2 : DirListing) :
    (find_root_some (fun q => (fs q).filter (fun e => e.isSome)) p = find_root_some fs p)
      ∧ (fs s = l1 ++ none :: l2 → hasMarker l1 = false →
          find_root fs s = Except.error ()) :=
  ⟨find_root_some_filter fs p, fun hfs h => find_root_panics hfs h⟩

/-- C6 witness: the filter invariance and the first level panic, at the
fixture with a broken entry in directory a. -/
theorem C6_witness :
    (find_root_some (fun q => (fsBrokenFirst q).filter (fun e => e.isSome)) ["a"]
        = find_root_some fsBrokenFirst ["a"])
      ∧ find_root fsBrokenFirst ["a"] = Except.error () :=
  ⟨(C6_canonicalization_failure_handling fsBrokenFirst ["a"] ["a"] [] []).1,
   (C6_canonicalization_failure_handling fsBrokenFirst ["a"] ["a"] [] []).2 rfl rfl⟩

/-- C2 counterexample: for the package name with an embedded quote, the
written manifest does not parse back, so the round trip ends in the
parse unwrap panic rather than returning the name. -/
theorem C2_counterexample :
    ¬ get_package_info (new_package stFresh "a\"b").1 "a\"b" = Except.ok "a\"b" := by
  intro h
  rw [show get_package_info (new_package stFresh "a\"b").1 "a\"b" = Except.error () from rfl] at h
  exact Except.noConfusion h

/-- C2 (amended): for every package name that is a creatable directory
name and needs no TOML escaping, creating the package in a fresh in
project state and reading its info back returns exactly the name. -/
theorem C2_manifest_roundtrip_safe (s : String) (h : safePkgName s = true) :
    get_package_info (new_package stFresh s).1 s = Except.ok s := by
  have h2 : validDirName s = true ∧ s.data.all tomlSafeChar = true := by
    simpa [safePkgName, Bool.and_eq_true] using h
  have hcd : createDir stFresh s = some { dirs := [s], files := [], inProject := true } := by
    unfold createDir
    rw [h2.1]
    rfl
  rw [new_package, if_pos (show stFresh.inProject = true from rfl), hcd]
  show get_package_info (writeFile { dirs := [s], files := [], inProject := true }
    (s ++ "/pack_def.toml") ("name=\"" ++ s ++ "\"")) s = Except.ok s
  have hlu : lookupFile (writeFile { dirs := [s], files := [], inProject := true }
      (s ++ "/pack_def.toml") ("name=\"" ++ s ++ "\"")) (s ++ "/pack_def.toml")
      = some ("name=\"" ++ s ++ "\"") := by
    rw [lookupFile, writeFile]
    rw [List.find?_cons_of_pos (p := fun pc : String × String => pc.1 == s ++ "/pack_def.toml")
      _ (beq_self_eq_true _)]
    rfl
  rw [get_package_info, hlu]
  show (match toml_parse_name ("name=\"" ++ s ++ "\"") with
        | some info => Except.ok info
        | none => Except.error ()) = Except.ok s
  rw [toml_parse_name_roundtrip h2.2]

/-- C2 witness: the round trip at the safe name mypkg. -/
theorem C2_witness :
    safePkgName "mypkg" = true
      ∧ get_package_info (new_package stFresh "mypkg").1 "mypkg" = Except.ok "mypkg" :=
  ⟨by decide, C2_manifest_roundtrip_safe "mypkg" (by decide)⟩

/-- C3 counterexample: when the package directory already exists,
new_package reports it and returns early; the old manifest content is
left untouched, not overwritten. -/
theorem C3_counterexample :
    new_package stOldPkg "p" = (stOldPkg, ["Package already exists"])
      ∧ lookupFile (new_package stOldPkg "p").1 "p/pack_def.toml" = some "name=\"old\"" :=
  ⟨rfl, rfl⟩

/-- C3 (amended): inside a project, when directory creation fails
new_package prints Package already exists and returns with the state
unchanged, writing no manifest; only when creation succeeds does it write
the manifest name equal to the quoted package name into the fresh
directory. -/
theorem C3_existing_package_soft_skip (st : FsState) (name : String)
    (hin : st.inProject = true) :
    (createDir st name = none → new_package st name = (st, ["Package already exists"]))
      ∧ (∀ st1, createDir st name = some st1 →
          new_package st name
            = (writeFile st1 (name ++ "/pack_def.toml") ("name=\"" ++ name ++ "\""), [])) := by
  constructor
  · intro h
    rw [new_package, if_pos hin, h]
  · intro st1 h
    rw [new_package, if_pos hin, h]

/-- C3 witness: the early return on the existing package p, and the
manifest write for the fresh package q. -/
theorem C3_witness :
    new_package stOldPkg "p" = (stOldPkg, ["Package already exists"])
      ∧ new_package stFresh "q"
          = (writeFile { dirs := ["q"], files := [], inProject := true }
              ("q" ++ "/pack_def.toml") ("name=\"" ++ "q" ++ "\""), []) :=
  ⟨(C3_existing_package_soft_skip stOldPkg "p" rfl).1 rfl,
   (C3_existing_package_soft_skip stFresh "q" rfl).2
     { dirs := ["q"], files := [], inProject := true } rfl⟩

/-- C5 counterexample: outside a project, new_package returns normally
with the state unchanged after printing a warning; its return type in the
source is the unit type, so no NotJavaLineProject failure reaches the
caller, refuting the claim that package creation raises one. -/
theorem C5_counterexample :
    new_package stOutside "p" = (stOutside, ["You are not in a java_line project"]) := rfl

/-- C5 (amended): when root resolution fails, add_class surfaces the
NotJavaLineProject error to its caller and creates nothing, while
new_package only prints the warning You are not in a java_line project,
returns normally, and creates nothing. -/
theorem C5_not_in_project_gating (st : FsState) (cfn name : String)
    (parent : Option String) (h : st.inProject = false) :
    add_class st cfn parent = (st, Except.error AddErr.notJavaLineProject)
      ∧ new_package st name = (st, ["You are not in a java_line project"]) := by
  constructor
  · rw [add_class.eq_def, if_neg (by simp [h])]
  · rw [new_package, if_neg (by simp [h])]

/-- C5 witness: both behaviours at a concrete state outside a project. -/
theorem C5_witness :
    add_class stOutside "x" (some "p") = (stOutside, Except.error AddErr.notJavaLineProject)
      ∧ new_package stOutside "pkg" = (stOutside, ["You are not in a java_line project"]) :=
  ⟨(C5_not_in_project_gating stOutside "x" "pkg" (some "p") rfl).1,
   (C5_not_in_project_gating stOutside "x" "pkg" (some "p") rfl).2⟩

/-- C7: get_package_info returns the manifest's name field when the file
is present and parses, the empty string when the file is absent, and the
parse unwrap panic (error, never the empty string) when the file is
present but does not parse. -/
theorem C7_get_package_info_cases (st : FsState) (dir : String) :
    (lookupFile st (dir ++ "/pack_def.toml") = none → get_package_info st dir = Except.ok "")
      ∧ (∀ c n, lookupFile st (dir ++ "/pack_def.toml") = some c →
          toml_parse_name c = some n → get_package_info st dir = Except.ok n)
      ∧ (∀ c, lookupFile st (dir ++ "/pack_def.toml") = some c →
          toml_parse_name c = none → get_package_info st dir = Except.error ()) := by
  refine ⟨?_, ?_, ?_⟩
  · intro h
    rw [get_package_info, h]
  · intro c n h hp
    rw [get_package_info, h]
    show (match toml_parse_name c with
          | some info => Except.ok info
          | none => Except.error ()) = Except.ok n
    rw [hp]
  · intro c h hp
    rw [get_package_info, h]
    show (match toml_parse_name c with
          | some info => Except.ok info
          | none => Except.error ()) = Except.error ()
    rw [hp]

/-- C7 witness: the three cases at concrete states: no manifest, manifest
naming x, unparsable manifest. -/
theorem C7_witness :
    get_package_info stFresh "p" = Except.ok ""
      ∧ get_package_info stNamedX "p" = Except.ok "x"
      ∧ get_package_info stBadManifest "p" = Except.error () :=
  ⟨(C7_get_package_info_cases stFresh "p").1 rfl,
   (C7_get_package_info_cases stNamedX "p").2.1 "name=\"x\"" "x" rfl rfl,
   (C7_get_package_info_cases stBadManifest "p").2.2 "oops" rfl rfl⟩

/-- C8: the generated class name is the uppercased first character of the
identifier followed by the rest verbatim, the output file is the class
name followed by .java, and the empty identifier yields the empty class
name and the file name .java; create_class writes exactly that file. -/
theorem C8_class_name_derivation :
    (∀ (c : Char) (rest : List Char),
        className (String.mk (c :: rest)) = charToUppercase c ++ String.mk rest)
      ∧ className "" = ""
      ∧ (∀ s, classFileName s = className s ++ ".java")
      ∧ classFileName "" = ".java"
      ∧ (∀ st s, create_class st s none none
          = writeFile st (classFileName s) (classBodyPlain (className s))) :=
  ⟨fun _ _ => rfl, rfl, fun _ => rfl, rfl, fun _ _ => rfl⟩

/-- C10: inside a project, whenever the target directory's package info
comes back as the empty string, which happens both when the manifest file
is absent and when it parses with an empty name field, add_class writes
the class file from the plain template with no import line; the output is
the same expression in both cases. -/
theorem C10_empty_qualifier_no_import (st : FsState) (idr dir : String)
    (hin : st.inProject = true)
    (h : get_package_info st dir = Except.ok "") :
    add_class st idr (some dir)
      = (writeFile st (dir ++ "/" ++ classFileName idr) (classBodyPlain (className idr)),
         Except.ok ()) := by
  rw [add_class, if_pos hin]
  show (match get_package_info st dir with
        | .error _ => (st, Except.error AddErr.panicked)
        | .ok package_info =>
          if package_info.isEmpty then
            (create_class st idr (some dir) none, Except.ok ())
          else
            (create_class st idr (some dir) (some package_info), Except.ok ())) = _
  rw [h]
  rfl

/-- C10 witness: identical outputs for the empty name manifest and for
the absent manifest. -/
theorem C10_witness :
    add_class stEmptyName "x" (some "p")
        = (writeFile stEmptyName ("p" ++ "/" ++ classFileName "x")
            (classBodyPlain (className "x")), Except.ok ())
      ∧ add_class stFresh "x" (some "p")
        = (writeFile stFresh ("p" ++ "/" ++ classFileName "x")
            (classBodyPlain (className "x")), Except.ok ()) :=
  ⟨C10_empty_qualifier_no_import stEmptyName "x" "p" rfl rfl,
   C10_empty_qualifier_no_import stFresh "x" "p" rfl rfl⟩
